import Mathlib

/-!
Verification of the age-aware similarity calibration core of the
`how-alike` repository against its natural-language specification.

The development shallowly embeds the Python training/evaluation scripts:
 * `scripts/train-penalty-calibrator.py` — the Penalty Model
   (`penalty_calibration`) and its evaluation engine (`evaluate_calibration`:
   grid-searched EER and TAR@FAR);
 * `scripts/train-linear-calibrator.py` — the Constrained Linear Model
   (`constrained_linear_calibrator`, `evaluate_calibrator`) and the
   Feature Assembler (`extract_features_from_pairs`);
 * `scripts/train-age-probe.py` — per-sample skipping during embedding
   extraction (`extract_embeddings_from_utkface`).

Scores, thresholds and metric arithmetic are embedded over `ℚ` so that
concrete runs of the evaluation engine can be decided by evaluation; the
analytic parts (sigmoid, vector normalisation, gradients) live over `ℝ`.
-/

namespace HowAlike

/-! ## Penalty Model — `train-penalty-calibrator.py`

`penalty_calibration(similarity, age_diff, alpha, tau, M)`:
  `penalty = alpha * np.clip(age_diff - tau, 0, M)` and the result is
  `similarity - penalty`.  `np.clip(x, lo, hi)` is `min hi (max x lo)`. -/

/-- `np.clip(x, lo, hi) = np.minimum(hi, np.maximum(x, lo))`. -/
def npClip (x lo hi : ℚ) : ℚ := min hi (max x lo)

/-- `penalty_calibration` from `train-penalty-calibrator.py` line 24:
`similarity - alpha * np.clip(age_diff - tau, 0, M)`. -/
def penalty_calibration (similarity age_diff alpha tau M : ℚ) : ℚ :=
  similarity - alpha * npClip (age_diff - tau) 0 M

/-! ## Constrained Linear Model — `train-linear-calibrator.py`

`evaluate_calibrator` computes `logits = features @ params[1:] + params[0]`
and `probs = 1 / (1 + np.exp(-logits))` with feature order
`[similarity, |Δage|, |Δage|^2, uncertainty]`. -/

/-- Parameter vector of the constrained linear calibrator,
`[bias, w_sim, w_age, w_age2, w_unc]`. -/
structure LinearParams where
  bias : ℝ
  wSim : ℝ
  wAge : ℝ
  wAge2 : ℝ
  wUnc : ℝ

/-- A `FacePairFeature`: the feature vector
`[similarity, age_diff, age_diff**2, avg_uncertainty]` built by
`extract_features_from_pairs` (`train-linear-calibrator.py` line 170). -/
structure FacePairFeature where
  similarity : ℝ
  ageDiff : ℝ
  ageDiffSquared : ℝ
  uncertainty : ℝ

/-- The logistic sigmoid `1 / (1 + np.exp(-z))`. -/
noncomputable def sigmoid (z : ℝ) : ℝ := 1 / (1 + Real.exp (-z))

/-- `logits = features @ params[1:] + params[0]` for one feature vector. -/
noncomputable def linearLogit (p : LinearParams) (f : FacePairFeature) : ℝ :=
  p.bias + p.wSim * f.similarity + p.wAge * f.ageDiff
    + p.wAge2 * f.ageDiffSquared + p.wUnc * f.uncertainty

/-- `probs = 1 / (1 + np.exp(-logits))` — the model's probability output. -/
noncomputable def linearProb (p : LinearParams) (f : FacePairFeature) : ℝ :=
  sigmoid (linearLogit p f)

/-- The sigmoid is monotone. -/
theorem sigmoid_monotone : Monotone sigmoid := by
  intro a b hab
  have hexp : Real.exp (-b) ≤ Real.exp (-a) := Real.exp_le_exp.mpr (neg_le_neg hab)
  have hpos : (0:ℝ) < 1 + Real.exp (-b) := by positivity
  have h1 : 1 + Real.exp (-b) ≤ 1 + Real.exp (-a) := by linarith
  exact one_div_le_one_div_of_le hpos h1

/-! ## Feature Assembler — `extract_features_from_pairs`

`train-linear-calibrator.py` lines 160–170:
```
emb1_norm = emb1 / np.linalg.norm(emb1)
emb2_norm = emb2 / np.linalg.norm(emb2)
similarity = float(np.dot(emb1_norm, emb2_norm))
age_diff = abs(age1 - age2)
avg_uncertainty = (unc1 + unc2) / 2
feature_vec = [similarity, age_diff, age_diff**2, avg_uncertainty]
```
-/

/-- An age-probe output: `(age, uncertainty)`. -/
structure AgeEstimate where
  age : ℝ
  uncertainty : ℝ

/-- `np.dot` on fixed-length vectors. -/
noncomputable def npDot {n : ℕ} (v w : Fin n → ℝ) : ℝ := ∑ i, v i * w i

/-- `np.linalg.norm`: the Euclidean norm. -/
noncomputable def npLinalgNorm {n : ℕ} (v : Fin n → ℝ) : ℝ :=
  Real.sqrt (npDot v v)

/-- `emb / np.linalg.norm(emb)`: unit normalisation. -/
noncomputable def normalizeVec {n : ℕ} (v : Fin n → ℝ) : Fin n → ℝ :=
  fun i => v i / npLinalgNorm v

/-- The Feature Assembler: builds the `FacePairFeature` for one pair exactly
as `extract_features_from_pairs` does. -/
noncomputable def assemblePairFeature {n : ℕ} (e1 : Fin n → ℝ) (a1 : AgeEstimate)
    (e2 : Fin n → ℝ) (a2 : AgeEstimate) : FacePairFeature :=
  { similarity := npDot (normalizeVec e1) (normalizeVec e2)
    ageDiff := |a1.age - a2.age|
    ageDiffSquared := |a1.age - a2.age| ^ 2
    uncertainty := (a1.uncertainty + a2.uncertainty) / 2 }

/-! ## Evaluation engine, rational layer

Both evaluation engines work on already-computed scores:
`evaluate_calibrator` (`train-linear-calibrator.py`) on the array of
probabilities paired with 0/1 labels, `evaluate_calibration`
(`train-penalty-calibrator.py`) on the calibrated same-pair and
different-pair score arrays.  Scores and thresholds are embedded as `ℚ`. -/

/-- Guarded division `a / b if b > 0 else 0`, as both scripts write
`x / len(l) if len(l) > 0 else 0`. -/
def ratio (a b : ℕ) : ℚ := if 0 < b then (a : ℚ) / (b : ℚ) else 0

/-- `np.linspace(0, 1, 1000)`: the ascending threshold grid used by
`evaluate_calibrator` and by the EER search of `evaluate_calibration`. -/
def thresholds1000 : List ℚ := (List.range 1000).map (fun k : ℕ => (k : ℚ) / 999)

/-- `np.linspace(1, 0, 10000)`: the descending threshold grid of the
TAR@FAR search in `evaluate_calibration`. -/
def thrDesc10000 : List ℚ := (List.range 10000).map (fun k : ℕ => 1 - (k : ℚ) / 9999)

/-! ### Linear engine (`evaluate_calibrator`): scores are (prob, label) pairs -/

/-- `tp = np.sum((predictions == 1) & (labels == 1))` at threshold `t`,
where `predictions = probs >= threshold`. -/
def tpAt (pairs : List (ℚ × Bool)) (t : ℚ) : ℕ :=
  pairs.countP (fun x => decide (t ≤ x.1) && x.2)

/-- `fp = np.sum((predictions == 1) & (labels == 0))`. -/
def fpAt (pairs : List (ℚ × Bool)) (t : ℚ) : ℕ :=
  pairs.countP (fun x => decide (t ≤ x.1) && !x.2)

/-- `fn = np.sum((predictions == 0) & (labels == 1))`. -/
def fnAt (pairs : List (ℚ × Bool)) (t : ℚ) : ℕ :=
  pairs.countP (fun x => decide (x.1 < t) && x.2)

/-- `tn = np.sum((predictions == 0) & (labels == 0))`. -/
def tnAt (pairs : List (ℚ × Bool)) (t : ℚ) : ℕ :=
  pairs.countP (fun x => decide (x.1 < t) && !x.2)

/-- `tpr = tp / (tp + fn) if (tp + fn) > 0 else 0`. -/
def tprAt (pairs : List (ℚ × Bool)) (t : ℚ) : ℚ :=
  ratio (tpAt pairs t) (tpAt pairs t + fnAt pairs t)

/-- `fpr = fp / (fp + tn) if (fp + tn) > 0 else 0`. -/
def fprAt (pairs : List (ℚ × Bool)) (t : ℚ) : ℚ :=
  ratio (fpAt pairs t) (fpAt pairs t + tnAt pairs t)

/-- `np.trapz(y, x)`: the trapezoid sum along the given point order,
with no sorting. -/
def npTrapz : List ℚ → List ℚ → ℚ
  | y1 :: y2 :: ys, x1 :: x2 :: xs => (x2 - x1) * (y1 + y2) / 2 + npTrapz (y2 :: ys) (x2 :: xs)
  | _, _ => 0

/-- `auc = np.trapz(tpr_list, fpr_list)` where both lists run over the
ascending threshold grid (`train-linear-calibrator.py` lines 264–287). -/
def aucOf (pairs : List (ℚ × Bool)) : ℚ :=
  npTrapz (thresholds1000.map (tprAt pairs)) (thresholds1000.map (fprAt pairs))

/-- The for-loop with break shared by both TAR@FAR searches: return the
value `f t` at the first grid element `t` satisfying `p`, and `0` when no
element does. -/
def firstHit (p : ℚ → Bool) (f : ℚ → ℚ) : List ℚ → ℚ
  | [] => 0
  | t :: ts => if p t then f t else firstHit p f ts

/-- TAR@FAR of `evaluate_calibrator` (`train-linear-calibrator.py` lines
293–299): walk the ascending threshold grid and report the TPR at the
first threshold whose FPR is `<=` the target, `0.0` if none is. -/
def linearTARatFAR (pairs : List (ℚ × Bool)) (target : ℚ) : ℚ :=
  firstHit (fun t => decide (fprAt pairs t ≤ target)) (tprAt pairs) thresholds1000

/-! ### Penalty engine (`evaluate_calibration`): separate score lists -/

/-- `fn / len(same_scores)` with the zero-length guard, where
`fn = len(same_scores) - np.sum(same_scores >= threshold)`. -/
def fnrAtP (same : List ℚ) (t : ℚ) : ℚ :=
  ratio (same.countP (fun s => decide (s < t))) same.length

/-- `fp / len(diff_scores)` with the zero-length guard, where
`fp = len(diff_scores) - np.sum(diff_scores < threshold)`. -/
def fprAtP (diff : List ℚ) (t : ℚ) : ℚ :=
  ratio (diff.countP (fun s => decide (t ≤ s))) diff.length

/-- `tp / len(same_scores)` with the zero-length guard. -/
def tprAtP (same : List ℚ) (t : ℚ) : ℚ :=
  ratio (same.countP (fun s => decide (t ≤ s))) same.length

/-- `eer = (fnr + fpr) / 2` at one threshold. -/
def eerAt (same diff : List ℚ) (t : ℚ) : ℚ :=
  (fnrAtP same t + fprAtP diff t) / 2

/-- The EER search loop of `evaluate_calibration` (lines 54–75): track
`(best_eer, best_threshold)` over the grid, updating on strict decrease. -/
def penaltyEERLoop (same diff : List ℚ) : List ℚ → ℚ × ℚ → ℚ × ℚ
  | [], best => best
  | t :: ts, best =>
      if eerAt same diff t < best.1 then penaltyEERLoop same diff ts (eerAt same diff t, t)
      else penaltyEERLoop same diff ts best

/-- The reported EER: `best_eer` after the grid sweep, started from
`best_eer = 1.0`, `best_threshold = 0.5`. -/
def penaltyBestEER (same diff : List ℚ) : ℚ :=
  (penaltyEERLoop same diff thresholds1000 (1, 1/2)).1

/-- TAR@FAR of `evaluate_calibration` (lines 77–91): walk
`np.linspace(1, 0, 10000)` and report the TPR at the first threshold
whose FPR is `>=` the target, `0.0` if the loop never breaks. -/
def penaltyTARatFAR (same diff : List ℚ) (target : ℚ) : ℚ :=
  firstHit (fun t => decide (target ≤ fprAtP diff t)) (tprAtP same) thrDesc10000

/-! ## Constrained fit — `constrained_linear_calibrator`

The source minimises the L2-regularised binary cross-entropy over the box
`[(None,None), (0,None), (None,0), (None,0), (None,0)]` with the external
bounded quasi-Newton solver of `scipy.optimize.minimize` (L-BFGS-B),
starting from `[0.0, 1.0, -0.01, -0.0001, -0.01]`.

Modelled from the spec: the solver itself is library code absent from this
repository; spec section 9 names projected gradient descent with explicit
clamping after each update as the equivalent of the bounded optimizer, so
the fit is embedded as a clamped descent loop on the same loss, bounds and
initial point. -/

/-- `sum(l) / len(l)`, the mean used in the binary cross-entropy gradient. -/
noncomputable def listMean (l : List ℝ) : ℝ := l.sum / l.length

/-- Gradient of `logistic_loss`: binary cross-entropy plus the
`regularization * sum(w[1:]**2)` term (bias excluded from regularisation). -/
noncomputable def logisticLossGrad (data : List (FacePairFeature × ℝ))
    (regularization : ℝ) (w : LinearParams) : LinearParams :=
  { bias := listMean (data.map (fun d => linearProb w d.1 - d.2))
    wSim := listMean (data.map (fun d => (linearProb w d.1 - d.2) * d.1.similarity))
      + 2 * regularization * w.wSim
    wAge := listMean (data.map (fun d => (linearProb w d.1 - d.2) * d.1.ageDiff))
      + 2 * regularization * w.wAge
    wAge2 := listMean (data.map (fun d => (linearProb w d.1 - d.2) * d.1.ageDiffSquared))
      + 2 * regularization * w.wAge2
    wUnc := listMean (data.map (fun d => (linearProb w d.1 - d.2) * d.1.uncertainty))
      + 2 * regularization * w.wUnc }

/-- One unconstrained descent update with learning rate `lr`. -/
noncomputable def gradUpdate (data : List (FacePairFeature × ℝ))
    (regularization lr : ℝ) (w : LinearParams) : LinearParams :=
  let g := logisticLossGrad data regularization w
  { bias := w.bias - lr * g.bias
    wSim := w.wSim - lr * g.wSim
    wAge := w.wAge - lr * g.wAge
    wAge2 := w.wAge2 - lr * g.wAge2
    wUnc := w.wUnc - lr * g.wUnc }

/-- Projection onto the bounds list of `constrained_linear_calibrator`:
bias free, `w_sim` clamped to `[0, inf)`, the other weights to `(-inf, 0]`. -/
def clampToBounds (w : LinearParams) : LinearParams :=
  { bias := w.bias
    wSim := max w.wSim 0
    wAge := min w.wAge 0
    wAge2 := min w.wAge2 0
    wUnc := min w.wUnc 0 }

/-- `initial_params = np.array([0.0, 1.0, -0.01, -0.0001, -0.01])`. -/
noncomputable def initialParams : LinearParams :=
  { bias := 0, wSim := 1, wAge := -1/100, wAge2 := -1/10000, wUnc := -1/100 }

/-- The fit of `constrained_linear_calibrator` after `n` solver steps:
clamped descent on the regularised logistic loss from `initial_params`. -/
noncomputable def constrained_linear_calibrator (data : List (FacePairFeature × ℝ))
    (regularization lr : ℝ) : ℕ → LinearParams
  | 0 => initialParams
  | n + 1 =>
      clampToBounds (gradUpdate data regularization lr
        (constrained_linear_calibrator data regularization lr n))

/-! ## Sample skipping — `extract_embeddings_from_utkface`

The extraction loop of `train-age-probe.py` lines 108–143 (and the same
shape in `train-penalty-calibrator.py` lines 232–263) runs per file:
`continue` when the filename has fewer than 4 underscore-separated parts,
when the parsed age exceeds 100, when `cv2.imread` returns `None`, and on
any raised exception; otherwise it appends `(embedding, age)`.  The
external effects (filename parsing, image decode, model inference) are
abstracted as the per-sample outcomes they produce. -/

/-- One input sample as the loop observes it: the number of
underscore-separated filename parts, the parse outcome of `int(parts[0])`
(`none` when a `ValueError` is raised), and the image-load outcome
(`none` when `cv2.imread` fails). -/
structure RawSample (α : Type) where
  partsCount : ℕ
  parsedAge : Option ℤ
  image : Option α

/-- One iteration of the extraction loop: `none` exactly when the sample
is skipped by a `continue`, otherwise the appended `(embedding, age)`. -/
def processSample {α β : Type} (embed : α → β) (s : RawSample α) : Option (β × ℤ) :=
  if s.partsCount < 4 then none
  else
    match s.parsedAge with
    | none => none
    | some age =>
        if 100 < age then none
        else
          match s.image with
          | none => none
          | some img => some (embed img, age)

/-- The whole extraction loop `extract_embeddings_from_utkface`:
the accumulated `(embedding, age)` list over the input files. -/
def extract_embeddings_from_utkface {α β : Type} (embed : α → β)
    (files : List (RawSample α)) : List (β × ℤ) :=
  files.filterMap (processSample embed)

/-! ## Claim C1 -/

/-- C1: after fitting, the Constrained Linear Model's similarity weight is
nonnegative and its ageDiff, ageDiff-squared and uncertainty weights are
nonpositive, for every training set (hence also for one where the age gap
alone perfectly predicts the label and similarity is pure noise), every
regularisation strength, every learning rate and every number of solver
steps: the bounds are enforced by clamping, not learned from the data. -/
theorem constrained_fit_respects_sign_constraints
    (data : List (FacePairFeature × ℝ)) (regularization lr : ℝ) (n : ℕ) :
    0 ≤ (constrained_linear_calibrator data regularization lr n).wSim ∧
    (constrained_linear_calibrator data regularization lr n).wAge ≤ 0 ∧
    (constrained_linear_calibrator data regularization lr n).wAge2 ≤ 0 ∧
    (constrained_linear_calibrator data regularization lr n).wUnc ≤ 0 := by
  cases n with
  | zero =>
      refine ⟨?_, ?_, ?_, ?_⟩ <;>
        norm_num [constrained_linear_calibrator, initialParams]
  | succ n =>
      refine ⟨?_, ?_, ?_, ?_⟩ <;>
        simp only [constrained_linear_calibrator, clampToBounds] <;>
        first
          | exact le_max_right _ _
          | exact min_le_right _ _

/-! ## Claim C2 -/

/-- C2: for any weights satisfying the sign constraints and any feature
vector with `ageDiff >= 0` and `ageDiffSquared = ageDiff^2`, the model
probability is non-increasing in ageDiff and non-decreasing in similarity,
the other features held fixed, at all inputs on or off distribution. -/
theorem linearProb_monotone (p : LinearParams) (hs : 0 ≤ p.wSim)
    (ha : p.wAge ≤ 0) (ha2 : p.wAge2 ≤ 0) (hu : p.wUnc ≤ 0)
    (s sHi d dHi u : ℝ) (hd : 0 ≤ d) (hdd : d ≤ dHi) (hss : s ≤ sHi) :
    linearProb p ⟨s, dHi, dHi ^ 2, u⟩ ≤ linearProb p ⟨s, d, d ^ 2, u⟩ ∧
    linearProb p ⟨s, d, d ^ 2, u⟩ ≤ linearProb p ⟨sHi, d, d ^ 2, u⟩ := by
  have hsq : d ^ 2 ≤ dHi ^ 2 := by nlinarith
  constructor
  · apply sigmoid_monotone
    unfold linearLogit
    dsimp only
    have h1 : p.wAge * dHi ≤ p.wAge * d := mul_le_mul_of_nonpos_left hdd ha
    have h2 : p.wAge2 * dHi ^ 2 ≤ p.wAge2 * d ^ 2 := mul_le_mul_of_nonpos_left hsq ha2
    linarith
  · apply sigmoid_monotone
    unfold linearLogit
    dsimp only
    have h1 : p.wSim * s ≤ p.wSim * sHi := mul_le_mul_of_nonneg_left hss hs
    linarith

/-- Witness for C2 at the concrete weights `(0, 1, -1, -1, -1)`,
similarities `0 <= 1`, age gaps `0 <= 1`, uncertainty `0`. -/
theorem linearProb_monotone_w :
    linearProb ⟨0, 1, -1, -1, -1⟩ ⟨0, 1, 1 ^ 2, 0⟩
        ≤ linearProb ⟨0, 1, -1, -1, -1⟩ ⟨0, 0, 0 ^ 2, 0⟩ ∧
    linearProb ⟨0, 1, -1, -1, -1⟩ ⟨0, 0, 0 ^ 2, 0⟩
        ≤ linearProb ⟨0, 1, -1, -1, -1⟩ ⟨1, 0, 0 ^ 2, 0⟩ :=
  linearProb_monotone ⟨0, 1, -1, -1, -1⟩ (by norm_num) (by norm_num) (by norm_num)
    (by norm_num) 0 1 0 1 0 (by norm_num) (by norm_num) (by norm_num)

/-! ## Claim C3 -/

/-- C3: the Penalty Model score is exactly
`s - alpha * clip(ageDiff - tau, 0, M)`; it equals `s` whenever
`ageDiff <= tau`, and equals `s - alpha * M` whenever
`ageDiff >= tau + M`, for every `M >= 0`. -/
theorem penalty_calibration_closed_form (s d alpha tau M : ℚ) (hM : 0 ≤ M) :
    penalty_calibration s d alpha tau M = s - alpha * npClip (d - tau) 0 M ∧
    (d ≤ tau → penalty_calibration s d alpha tau M = s) ∧
    (tau + M ≤ d → penalty_calibration s d alpha tau M = s - alpha * M) := by
  refine ⟨rfl, ?_, ?_⟩
  · intro h
    have h1 : max (d - tau) 0 = 0 := max_eq_right (by linarith)
    unfold penalty_calibration npClip
    rw [h1, min_eq_right hM, mul_zero, sub_zero]
  · intro h
    have h1 : max (d - tau) 0 = d - tau := max_eq_left (by linarith)
    have h2 : min M (d - tau) = M := min_eq_left (by linarith)
    unfold penalty_calibration npClip
    rw [h1, h2]

/-- Witness for C3 at `s = 1/2`, `ageDiff = 1`, `alpha = 1/100`,
`tau = 2`, `M = 3`: the gap is below threshold so the score is unchanged. -/
theorem penalty_calibration_closed_form_w :
    penalty_calibration (1/2) 1 (1/100) 2 3 = 1/2 :=
  (penalty_calibration_closed_form (1/2) 1 (1/100) 2 3 (by norm_num)).2.1 (by norm_num)

/-! ## Claim C10 -/

/-- C10: with `alpha >= 0` and `M >= 0` the penalty-calibrated score never
exceeds the raw similarity, never drops below `s - alpha * M`, and is
non-increasing in the age difference, at every real age difference
(also below `tau` and below zero). -/
theorem penalty_calibration_bounds (s d dHi alpha tau M : ℚ)
    (halpha : 0 ≤ alpha) (hM : 0 ≤ M) (hdd : d ≤ dHi) :
    s - alpha * M ≤ penalty_calibration s d alpha tau M ∧
    penalty_calibration s d alpha tau M ≤ s ∧
    penalty_calibration s dHi alpha tau M ≤ penalty_calibration s d alpha tau M := by
  have hclip0 : ∀ x : ℚ, 0 ≤ npClip x 0 M := fun x => le_min hM (le_max_right x 0)
  have hclipM : ∀ x : ℚ, npClip x 0 M ≤ M := fun _ => min_le_left M _
  have hmono : npClip (d - tau) 0 M ≤ npClip (dHi - tau) 0 M :=
    min_le_min (le_refl M) (max_le_max (by linarith) (le_refl 0))
  unfold penalty_calibration
  refine ⟨?_, ?_, ?_⟩
  · have := mul_le_mul_of_nonneg_left (hclipM (d - tau)) halpha
    linarith
  · have := mul_le_mul_of_nonneg_left (hclip0 (d - tau)) halpha
    linarith
  · have := mul_le_mul_of_nonneg_left hmono halpha
    linarith

/-- Witness for C10 at `s = 1`, gaps `0 <= 10`, `alpha = 1/100`, `tau = 2`,
`M = 5`. -/
theorem penalty_calibration_bounds_w :
    1 - (1/100 : ℚ) * 5 ≤ penalty_calibration 1 0 (1/100) 2 5 ∧
    penalty_calibration 1 0 (1/100) 2 5 ≤ 1 ∧
    penalty_calibration 1 10 (1/100) 2 5 ≤ penalty_calibration 1 0 (1/100) 2 5 :=
  penalty_calibration_bounds 1 0 10 (1/100) 2 5 (by norm_num) (by norm_num) (by norm_num)

/-! ## Claim C7 -/

/-- C7: the Feature Assembler returns exactly the similarity of the
unit-normalised embeddings, the absolute age difference (hence a
nonnegative one), its square, and the mean of the two per-face
uncertainties. -/
theorem assemblePairFeature_spec {n : ℕ} (e1 e2 : Fin n → ℝ) (a1 a2 : AgeEstimate) :
    (assemblePairFeature e1 a1 e2 a2).similarity
        = npDot (normalizeVec e1) (normalizeVec e2) ∧
    (assemblePairFeature e1 a1 e2 a2).ageDiff = |a1.age - a2.age| ∧
    0 ≤ (assemblePairFeature e1 a1 e2 a2).ageDiff ∧
    (assemblePairFeature e1 a1 e2 a2).ageDiffSquared
        = (assemblePairFeature e1 a1 e2 a2).ageDiff ^ 2 ∧
    (assemblePairFeature e1 a1 e2 a2).uncertainty
        = (a1.uncertainty + a2.uncertainty) / 2 :=
  ⟨rfl, rfl, abs_nonneg _, rfl, rfl⟩

/-! ## Claim C8 -/

/-- Counterexample to C8: a `FacePairFeature` record with a negative
ageDiff is accepted as is — the code carries the feature vector as a plain
list and runs no validation, so nothing rejects the construction. -/
theorem facePairFeature_negative_ageDiff_accepted :
    (⟨0, -1, 1, 0⟩ : FacePairFeature).ageDiff < 0 := by norm_num

/-- C8 amended: the Assembler itself never emits a negative ageDiff,
because it computes it as an absolute value; no separate validation
exists. -/
theorem assembler_never_negative_ageDiff {n : ℕ} (e1 e2 : Fin n → ℝ)
    (a1 a2 : AgeEstimate) :
    0 ≤ (assemblePairFeature e1 a1 e2 a2).ageDiff :=
  abs_nonneg _

/-! ## Claim C9 -/

/-- Counterexample to C9: the run that skips an out-of-range sample
(age 150) returns exactly the output of the run without it, so the
aggregate number of discarded samples is not reported to the caller —
two runs with different discard counts are indistinguishable. -/
theorem extraction_discard_count_not_reported :
    extract_embeddings_from_utkface (fun z : ℤ => z)
        [⟨4, some 150, some 5⟩, ⟨4, some 30, some 5⟩]
      = extract_embeddings_from_utkface (fun z : ℤ => z) [⟨4, some 30, some 5⟩] :=
  rfl

/-- C9 amended: unparseable, out-of-range and erroring samples are each
skipped without aborting the run — the extraction output is exactly the
output on the subsequence of valid samples — and the run reports the
count of successes, not of discards. -/
theorem extraction_skips_invalid_samples {α β : Type} (embed : α → β)
    (files : List (RawSample α)) :
    extract_embeddings_from_utkface embed files
      = extract_embeddings_from_utkface embed
          (files.filter (fun s => (processSample embed s).isSome)) := by
  induction files with
  | nil => rfl
  | cons s rest ih =>
      unfold extract_embeddings_from_utkface at ih ⊢
      rw [List.filter_cons]
      cases h : processSample embed s with
      | none => simp [List.filterMap_cons, h, ih]
      | some v => simp [List.filterMap_cons, h, ih]

/-! ## Structure of the threshold grids

The counterexample runs below are settled by decomposing the mapped
metric lists into constant segments rather than by brute evaluation. -/

/-- Splitting a mapped range at `a`. -/
theorem map_range_split (g : ℕ → ℚ) (a b : ℕ) :
    (List.range (a + b)).map g
      = (List.range a).map g ++ (List.range b).map (fun k => g (a + k)) := by
  rw [List.range_add, List.map_append, List.map_map]
  rfl

/-- A mapped range with a constant value is a `replicate`. -/
theorem map_range_const (g : ℕ → ℚ) (n : ℕ) (c : ℚ) (h : ∀ k, k < n → g k = c) :
    (List.range n).map g = List.replicate n c := by
  refine List.eq_replicate_iff.mpr ⟨by simp, ?_⟩
  intro b hb
  rcases List.mem_map.mp hb with ⟨k, hk, rfl⟩
  exact h k (List.mem_range.mp hk)

/-- Mapping a metric over the grid is a map over `List.range 1000`. -/
theorem thresholds1000_map (F : ℚ → ℚ) :
    thresholds1000.map F = (List.range 1000).map (fun k : ℕ => F ((k : ℚ) / 999)) := by
  unfold thresholds1000
  rw [List.map_map]
  simp only [Function.comp_def]

/-- Membership in the ascending grid gives the index form. -/
theorem mem_thresholds1000 (t : ℚ) (h : t ∈ thresholds1000) :
    ∃ k : ℕ, k < 1000 ∧ t = (k : ℚ) / 999 := by
  unfold thresholds1000 at h
  rcases List.mem_map.mp h with ⟨k, hk, rfl⟩
  exact ⟨k, List.mem_range.mp hk, rfl⟩

/-- One trapezoid step. -/
theorem npTrapz_step (a y b x : ℚ) (ys xs : List ℚ) :
    npTrapz (a :: y :: ys) (b :: x :: xs)
      = (x - b) * (a + y) / 2 + npTrapz (y :: ys) (x :: xs) := rfl

/-- Inside a constant segment every trapezoid has zero width, so a
replicated prefix collapses to its last point. -/
theorem npTrapz_collapse (n : ℕ) (a b : ℚ) (ys xs : List ℚ) :
    npTrapz (List.replicate (n + 1) a ++ ys) (List.replicate (n + 1) b ++ xs)
      = npTrapz (a :: ys) (b :: xs) := by
  induction n with
  | zero => rfl
  | succ m ih =>
      have hy : List.replicate (m + 2) a ++ ys
          = a :: (List.replicate (m + 1) a ++ ys) := rfl
      have hx : List.replicate (m + 2) b ++ xs
          = b :: (List.replicate (m + 1) b ++ xs) := rfl
      have hy1 : List.replicate (m + 1) a ++ ys
          = a :: (List.replicate m a ++ ys) := rfl
      have hx1 : List.replicate (m + 1) b ++ xs
          = b :: (List.replicate m b ++ xs) := rfl
      rw [hy, hx, hy1, hx1, npTrapz_step, ← hy1, ← hx1, ih]
      ring_nf

/-- Along a constant x-list every trapezoid has zero width. -/
theorem npTrapz_const_x (b : ℚ) : ∀ (ys : List ℚ) (m : ℕ),
    npTrapz ys (List.replicate m b) = 0 := by
  intro ys
  induction ys with
  | nil => intro m; cases m <;> rfl
  | cons y ys ih =>
      intro m
      cases ys with
      | nil => cases m with
          | zero => rfl
          | succ m1 => cases m1 <;> rfl
      | cons y2 ys2 =>
          cases m with
          | zero => rfl
          | succ m1 =>
              cases m1 with
              | zero => rfl
              | succ k =>
                  rw [show List.replicate (k+2) b = b :: b :: List.replicate k b from rfl,
                    npTrapz_step,
                    show (b:ℚ) :: List.replicate k b = List.replicate (k+1) b from rfl,
                    ih (k+1)]
                  ring

/-! ## Claim C4 -/

/-- A perfect separator for the linear engine: the one same-pair
probability `0.7` is strictly above the one different-pair probability
`0.3`. -/
def pairsC4 : List (ℚ × Bool) := [(7/10, true), (3/10, false)]

/-- Pointwise FPR of the C4 run over the grid. -/
theorem fprAt_pairsC4 (k : ℕ) :
    fprAt pairsC4 ((k : ℚ) / 999) = if k ≤ 299 then 1 else 0 := by
  by_cases h : k ≤ 299
  · have hc : (k : ℚ) / 999 ≤ 3 / 10 := by
      rw [div_le_div_iff (by norm_num) (by norm_num)]
      have hk : (k : ℚ) ≤ 299 := by exact_mod_cast h
      linarith
    simp [pairsC4, fprAt, fpAt, tnAt, ratio, hc, not_lt.mpr hc, h]
  · have hc : ¬ ((k : ℚ) / 999 ≤ 3 / 10) := by
      rw [not_le, div_lt_div_iff (by norm_num) (by norm_num)]
      have hk300 : 300 ≤ k := Nat.not_le.mp h
      have hk : (300 : ℚ) ≤ (k : ℚ) := by exact_mod_cast hk300
      linarith
    simp [pairsC4, fprAt, fpAt, tnAt, ratio, hc, not_le.mp hc, h]

/-- Pointwise TPR of the C4 run over the grid. -/
theorem tprAt_pairsC4 (k : ℕ) :
    tprAt pairsC4 ((k : ℚ) / 999) = if k ≤ 699 then 1 else 0 := by
  by_cases h : k ≤ 699
  · have hc : (k : ℚ) / 999 ≤ 7 / 10 := by
      rw [div_le_div_iff (by norm_num) (by norm_num)]
      have hk : (k : ℚ) ≤ 699 := by exact_mod_cast h
      linarith
    simp [pairsC4, tprAt, tpAt, fnAt, ratio, hc, not_lt.mpr hc, h]
  · have hc : ¬ ((k : ℚ) / 999 ≤ 7 / 10) := by
      rw [not_le, div_lt_div_iff (by norm_num) (by norm_num)]
      have hk700 : 700 ≤ k := Nat.not_le.mp h
      have hk : (700 : ℚ) ≤ (k : ℚ) := by exact_mod_cast hk700
      linarith
    simp [pairsC4, tprAt, tpAt, fnAt, ratio, hc, not_le.mp hc, h]

/-- C4 (code evidence): on the perfect separator `pairsC4` the linear
evaluation engine reports `auc = -1`.  The TPR/FPR lists are built over
the threshold-ascending grid, along which FPR runs from 1 down to 0, and
`np.trapz` is applied to that order without sorting, so the area comes
out negated: the claim (trapezoidal integration with FPR sorted
ascending, value 1.0 on a perfect separator) reads 1.0 here, but the
code returns -1. -/
theorem aucOf_pairsC4_eq_neg_one : aucOf pairsC4 = -1 := by
  have hfpr : thresholds1000.map (fprAt pairsC4)
      = List.replicate 300 1 ++ List.replicate 700 0 := by
    rw [thresholds1000_map]
    rw [show (1000 : ℕ) = 300 + 700 from rfl, map_range_split]
    rw [map_range_const _ 300 1 (fun k hk => by rw [fprAt_pairsC4, if_pos (by omega)]),
      map_range_const _ 700 0 (fun k hk => by rw [fprAt_pairsC4, if_neg (by omega)])]
  have htpr : thresholds1000.map (tprAt pairsC4)
      = List.replicate 700 1 ++ List.replicate 300 0 := by
    rw [thresholds1000_map]
    rw [show (1000 : ℕ) = 700 + 300 from rfl, map_range_split]
    rw [map_range_const _ 700 1 (fun k hk => by rw [tprAt_pairsC4, if_pos (by omega)]),
      map_range_const _ 300 0 (fun k hk => by rw [tprAt_pairsC4, if_neg (by omega)])]
  have t3 : npTrapz ((1:ℚ) :: List.replicate 300 0) ((0:ℚ) :: List.replicate 300 0) = 0 := by
    rw [show (0:ℚ) :: List.replicate 300 0 = List.replicate 301 (0:ℚ) from rfl]
    exact npTrapz_const_x 0 _ 301
  have t1 : npTrapz (List.replicate 400 (1:ℚ) ++ List.replicate 300 0)
      (List.replicate 400 (0:ℚ) ++ List.replicate 300 0) = 0 := by
    have hc := npTrapz_collapse 399 (1:ℚ) (0:ℚ) (List.replicate 300 0) (List.replicate 300 0)
    rw [show (399+1 : ℕ) = 400 from rfl] at hc
    rw [hc, t3]
  have t0 : npTrapz ((1:ℚ) :: (List.replicate 400 1 ++ List.replicate 300 0))
      ((1:ℚ) :: (List.replicate 400 0 ++ List.replicate 300 0)) = -1 := by
    rw [show List.replicate 400 (1:ℚ) ++ List.replicate 300 0
        = 1 :: (List.replicate 399 1 ++ List.replicate 300 0) from rfl]
    rw [show List.replicate 400 (0:ℚ) ++ List.replicate 300 0
        = 0 :: (List.replicate 399 0 ++ List.replicate 300 0) from rfl]
    rw [npTrapz_step]
    rw [show (1:ℚ) :: (List.replicate 399 1 ++ List.replicate 300 0)
        = List.replicate 400 1 ++ List.replicate 300 0 from rfl]
    rw [show (0:ℚ) :: (List.replicate 399 0 ++ List.replicate 300 0)
        = List.replicate 400 0 ++ List.replicate 300 0 from rfl]
    rw [t1]
    norm_num
  have e1 : List.replicate 700 (1:ℚ) = List.replicate 300 1 ++ List.replicate 400 1 := by
    rw [← List.replicate_add]
  have e2 : List.replicate 700 (0:ℚ) = List.replicate 400 0 ++ List.replicate 300 0 := by
    rw [← List.replicate_add]
  unfold aucOf
  rw [htpr, hfpr, e1, e2, List.append_assoc]
  have hc := npTrapz_collapse 299 (1:ℚ) (1:ℚ)
    (List.replicate 400 1 ++ List.replicate 300 0) (List.replicate 400 0 ++ List.replicate 300 0)
  rw [show (299+1 : ℕ) = 300 from rfl] at hc
  rw [hc, t0]

/-! ## Claim C5 -/

/-- Same-person calibrated scores for the C5 run. -/
def sameC5 : List ℚ := [1/10, 9/10]

/-- Different-person calibrated scores for the C5 run. -/
def diffC5 : List ℚ := [1/20, 4/5]

/-- Counting a predicate over a two-element list. -/
theorem countP_two (p : ℚ → Bool) (a b : ℚ) :
    List.countP p [a, b]
      = (if p a = true then 1 else 0) + (if p b = true then 1 else 0) := by
  cases hpa : p a <;> cases hpb : p b <;>
    simp [List.countP_cons, hpa, hpb]

/-- Pointwise FNR of the C5 run over the grid. -/
theorem fnrAtP_sameC5 (k : ℕ) :
    fnrAtP sameC5 ((k : ℚ) / 999)
      = if k < 100 then 0 else if k < 900 then 1/2 else 1 := by
  unfold fnrAtP sameC5
  rw [countP_two]
  by_cases h1 : k < 100
  · have hk : (k : ℚ) ≤ 99 := by exact_mod_cast Nat.lt_succ_iff.mp h1
    have hc1 : ¬ ((1:ℚ)/10 < (k : ℚ) / 999) := by
      rw [not_lt, div_le_div_iff (by norm_num) (by norm_num)]
      linarith
    have hc2 : ¬ ((9:ℚ)/10 < (k : ℚ) / 999) := by
      rw [not_lt, div_le_div_iff (by norm_num) (by norm_num)]
      linarith
    rw [if_pos h1]
    simp only [decide_eq_true_eq]
    rw [if_neg hc1, if_neg hc2]
    norm_num [ratio]
  · by_cases h2 : k < 900
    · have hge : (100 : ℚ) ≤ (k : ℚ) := by exact_mod_cast Nat.not_lt.mp h1
      have hk : (k : ℚ) ≤ 899 := by exact_mod_cast Nat.lt_succ_iff.mp h2
      have hc1 : (1:ℚ)/10 < (k : ℚ) / 999 := by
        rw [div_lt_div_iff (by norm_num) (by norm_num)]
        linarith
      have hc2 : ¬ ((9:ℚ)/10 < (k : ℚ) / 999) := by
        rw [not_lt, div_le_div_iff (by norm_num) (by norm_num)]
        linarith
      rw [if_neg h1, if_pos h2]
      simp only [decide_eq_true_eq]
      rw [if_pos hc1, if_neg hc2]
      norm_num [ratio]
    · have hge : (900 : ℚ) ≤ (k : ℚ) := by exact_mod_cast Nat.not_lt.mp h2
      have hc1 : (1:ℚ)/10 < (k : ℚ) / 999 := by
        rw [div_lt_div_iff (by norm_num) (by norm_num)]
        linarith
      have hc2 : (9:ℚ)/10 < (k : ℚ) / 999 := by
        rw [div_lt_div_iff (by norm_num) (by norm_num)]
        linarith
      rw [if_neg h1, if_neg h2]
      simp only [decide_eq_true_eq]
      rw [if_pos hc1, if_pos hc2]
      norm_num [ratio]

/-- Pointwise FPR of the C5 run over the grid. -/
theorem fprAtP_diffC5 (k : ℕ) :
    fprAtP diffC5 ((k : ℚ) / 999)
      = if k < 50 then 1 else if k < 800 then 1/2 else 0 := by
  unfold fprAtP diffC5
  rw [countP_two]
  by_cases h1 : k < 50
  · have hk : (k : ℚ) ≤ 49 := by exact_mod_cast Nat.lt_succ_iff.mp h1
    have hc1 : (k : ℚ) / 999 ≤ (1:ℚ)/20 := by
      rw [div_le_div_iff (by norm_num) (by norm_num)]
      linarith
    have hc2 : (k : ℚ) / 999 ≤ (4:ℚ)/5 := by
      rw [div_le_div_iff (by norm_num) (by norm_num)]
      linarith
    rw [if_pos h1]
    simp only [decide_eq_true_eq]
    rw [if_pos hc1, if_pos hc2]
    norm_num [ratio]
  · by_cases h2 : k < 800
    · have hge : (50 : ℚ) ≤ (k : ℚ) := by exact_mod_cast Nat.not_lt.mp h1
      have hk : (k : ℚ) ≤ 799 := by exact_mod_cast Nat.lt_succ_iff.mp h2
      have hc1 : ¬ ((k : ℚ) / 999 ≤ (1:ℚ)/20) := by
        rw [not_le, div_lt_div_iff (by norm_num) (by norm_num)]
        linarith
      have hc2 : (k : ℚ) / 999 ≤ (4:ℚ)/5 := by
        rw [div_le_div_iff (by norm_num) (by norm_num)]
        linarith
      rw [if_neg h1, if_pos h2]
      simp only [decide_eq_true_eq]
      rw [if_neg hc1, if_pos hc2]
      norm_num [ratio]
    · have hge : (800 : ℚ) ≤ (k : ℚ) := by exact_mod_cast Nat.not_lt.mp h2
      have hc1 : ¬ ((k : ℚ) / 999 ≤ (1:ℚ)/20) := by
        rw [not_le, div_lt_div_iff (by norm_num) (by norm_num)]
        linarith
      have hc2 : ¬ ((k : ℚ) / 999 ≤ (4:ℚ)/5) := by
        rw [not_le, div_lt_div_iff (by norm_num) (by norm_num)]
        linarith
      rw [if_neg h1, if_neg h2]
      simp only [decide_eq_true_eq]
      rw [if_neg hc1, if_neg hc2]
      norm_num [ratio]

/-- Pointwise `(fnr + fpr) / 2` of the C5 run over the grid. -/
theorem eerAt_C5 (k : ℕ) :
    eerAt sameC5 diffC5 ((k : ℚ) / 999)
      = if k < 50 then 1/2 else if k < 100 then 1/4
        else if k < 800 then 1/2 else if k < 900 then 1/4 else 1/2 := by
  unfold eerAt
  rw [fnrAtP_sameC5, fprAtP_diffC5]
  by_cases h1 : k < 50
  · rw [if_pos (show k < 100 by omega), if_pos h1, if_pos h1]
    norm_num
  · by_cases h2 : k < 100
    · rw [if_pos h2, if_neg h1, if_pos (show k < 800 by omega), if_neg h1, if_pos h2]
      norm_num
    · by_cases h3 : k < 800
      · rw [if_neg h2, if_pos (show k < 900 by omega), if_neg h1, if_pos h3,
          if_neg h1, if_neg h2, if_pos h3]
        norm_num
      · by_cases h4 : k < 900
        · rw [if_neg h2, if_pos h4, if_neg h1, if_neg h3, if_neg h1, if_neg h2,
            if_neg h3, if_pos h4]
          norm_num
        · rw [if_neg h2, if_neg h4, if_neg h1, if_neg h3, if_neg h1, if_neg h2,
            if_neg h3, if_neg h4]
          norm_num

/-- The EER search loop tracks the running minimum of the per-threshold
`(fnr + fpr) / 2` values. -/
theorem penaltyEERLoop_fst (same diff : List ℚ) :
    ∀ (l : List ℚ) (b t : ℚ),
      (penaltyEERLoop same diff l (b, t)).1
        = List.foldl min b (l.map (eerAt same diff)) := by
  intro l
  induction l with
  | nil => intro b t; rfl
  | cons u us ih =>
      intro b t
      by_cases h : eerAt same diff u < b
      · rw [show penaltyEERLoop same diff (u :: us) (b, t)
            = penaltyEERLoop same diff us (eerAt same diff u, u) from by
              simp [penaltyEERLoop, h]]
        rw [ih, List.map_cons, List.foldl_cons, min_eq_right (le_of_lt h)]
      · rw [show penaltyEERLoop same diff (u :: us) (b, t)
            = penaltyEERLoop same diff us (b, t) from by simp [penaltyEERLoop, h]]
        rw [ih, List.map_cons, List.foldl_cons, min_eq_left (le_of_not_lt h)]

/-- Folding `min` over a nonempty constant list takes one `min`. -/
theorem foldl_min_replicate (n : ℕ) (hn : n ≠ 0) :
    ∀ b a : ℚ, List.foldl min b (List.replicate n a) = min b a := by
  induction n with
  | zero => exact absurd rfl hn
  | succ m ih =>
      intro b a
      cases Nat.eq_zero_or_pos m with
      | inl h0 =>
          subst h0
          rfl
      | inr hpos =>
          rw [show List.replicate (m + 1) a = a :: List.replicate m a from rfl,
            List.foldl_cons, ih (Nat.pos_iff_ne_zero.mp hpos), min_assoc, min_self]

/-- C5 (code evidence): on the C5 run the penalty engine reports
`best_eer = 1/4`, the minimum over the grid of `(FNR + FPR) / 2`; yet the
grid contains thresholds with `FPR = FNR` (for instance `500/999`), and at
every grid threshold with `FPR = FNR` — exactly the minimisers of
`|FPR - FNR|`, since that gap is 0 there — the value `(FPR + FNR) / 2` is
`1/2`, not the reported `1/4`.  The engine minimises the average of the
two error rates, not their gap, contradicting both the claim and the
comment above the loop. -/
theorem penalty_eer_divergence :
    penaltyBestEER sameC5 diffC5 = 1/4 ∧
    fprAtP diffC5 ((500 : ℚ) / 999) = fnrAtP sameC5 ((500 : ℚ) / 999) ∧
    (∀ t ∈ thresholds1000, fprAtP diffC5 t = fnrAtP sameC5 t →
      eerAt sameC5 diffC5 t = 1/2) := by
  refine ⟨?_, ?_, ?_⟩
  · unfold penaltyBestEER
    rw [penaltyEERLoop_fst]
    have hmap : thresholds1000.map (eerAt sameC5 diffC5)
        = List.replicate 50 (1/2)
          ++ (List.replicate 50 (1/4)
          ++ (List.replicate 700 (1/2)
          ++ (List.replicate 100 (1/4) ++ List.replicate 100 (1/2)))) := by
      have hs1 : (List.range 50).map (fun k : ℕ => eerAt sameC5 diffC5 ((k : ℚ) / 999))
          = List.replicate 50 ((1:ℚ)/2) :=
        map_range_const _ 50 (1/2) (fun k hk => by
          rw [eerAt_C5, if_pos (by omega)])
      have hs2 : (List.range 50).map
            (fun k : ℕ => eerAt sameC5 diffC5 (((50 + k : ℕ) : ℚ) / 999))
          = List.replicate 50 ((1:ℚ)/4) :=
        map_range_const _ 50 (1/4) (fun k hk => by
          rw [eerAt_C5, if_neg (by omega), if_pos (by omega)])
      have hs3 : (List.range 700).map
            (fun k : ℕ => eerAt sameC5 diffC5 (((50 + (50 + k) : ℕ) : ℚ) / 999))
          = List.replicate 700 ((1:ℚ)/2) :=
        map_range_const _ 700 (1/2) (fun k hk => by
          rw [eerAt_C5, if_neg (by omega), if_neg (by omega), if_pos (by omega)])
      have hs4 : (List.range 100).map
            (fun k : ℕ => eerAt sameC5 diffC5 (((50 + (50 + (700 + k)) : ℕ) : ℚ) / 999))
          = List.replicate 100 ((1:ℚ)/4) :=
        map_range_const _ 100 (1/4) (fun k hk => by
          rw [eerAt_C5, if_neg (by omega), if_neg (by omega), if_neg (by omega),
            if_pos (by omega)])
      have hs5 : (List.range 100).map
            (fun k : ℕ => eerAt sameC5 diffC5 (((50 + (50 + (700 + (100 + k))) : ℕ) : ℚ) / 999))
          = List.replicate 100 ((1:ℚ)/2) :=
        map_range_const _ 100 (1/2) (fun k hk => by
          rw [eerAt_C5, if_neg (by omega), if_neg (by omega), if_neg (by omega),
            if_neg (by omega)])
      rw [thresholds1000_map]
      rw [show (1000 : ℕ) = 50 + 950 from rfl, map_range_split]
      rw [show (950 : ℕ) = 50 + 900 from rfl, map_range_split]
      rw [show (900 : ℕ) = 700 + 200 from rfl, map_range_split]
      rw [show (200 : ℕ) = 100 + 100 from rfl, map_range_split]
      rw [hs1, hs2, hs3, hs4, hs5]
    rw [hmap, List.foldl_append, List.foldl_append, List.foldl_append,
      List.foldl_append]
    rw [foldl_min_replicate 50 (by norm_num), foldl_min_replicate 50 (by norm_num),
      foldl_min_replicate 700 (by norm_num), foldl_min_replicate 100 (by norm_num),
      foldl_min_replicate 100 (by norm_num)]
    norm_num [min_def]
  · have h1 := fprAtP_diffC5 500
    have h2 := fnrAtP_sameC5 500
    norm_num at h1 h2
    rw [h1, h2]
  · intro t ht heq
    obtain ⟨k, hk, rfl⟩ := mem_thresholds1000 t ht
    rw [fprAtP_diffC5, fnrAtP_sameC5] at heq
    rw [eerAt_C5]
    by_cases h1 : k < 50
    · rw [if_pos h1]
    · by_cases h2 : k < 100
      · exfalso
        rw [if_neg h1, if_pos (show k < 800 by omega), if_pos h2] at heq
        norm_num at heq
      · by_cases h3 : k < 800
        · rw [if_neg h1, if_neg h2, if_pos h3]
        · by_cases h4 : k < 900
          · exfalso
            rw [if_neg h1, if_neg h3, if_neg h2, if_pos h4] at heq
            norm_num at heq
          · rw [if_neg h1, if_neg h2, if_neg h3, if_neg h4]

/-- Witness for the grid quantifier of C5: the threshold `500/999` lies on
the grid, satisfies `FPR = FNR` there, and its error average is `1/2`. -/
theorem penalty_eer_divergence_w :
    eerAt sameC5 diffC5 ((500 : ℚ) / 999) = 1/2 :=
  penalty_eer_divergence.2.2 ((500 : ℚ) / 999)
    (by
      unfold thresholds1000
      exact List.mem_map.mpr ⟨500, List.mem_range.mpr (by norm_num), by norm_num⟩)
    penalty_eer_divergence.2.1

/-! ## Claim C6 -/

/-- Modelled from the claim's words, for comparison with the code: scan
the linear engine's threshold grid from highest to lowest and report the
TPR at the first threshold whose FPR is at least the target, `0` when the
target FAR is never reached. -/
def specTARDesc (pairs : List (ℚ × Bool)) (target : ℚ) : ℚ :=
  firstHit (fun t => decide (target ≤ fprAt pairs t)) (tprAt pairs)
    thresholds1000.reverse

/-- A prefix on which the scan predicate fails is skipped. -/
theorem firstHit_skip_front (p : ℚ → Bool) (f : ℚ → ℚ) :
    ∀ l₁ l₂ : List ℚ, (∀ u ∈ l₁, p u = false) →
      firstHit p f (l₁ ++ l₂) = firstHit p f l₂ := by
  intro l₁
  induction l₁ with
  | nil => intro l₂ _; rfl
  | cons u us ih =>
      intro l₂ h
      have hu : p u = false := h u (List.mem_cons_self u us)
      rw [List.cons_append]
      rw [show firstHit p f (u :: (us ++ l₂))
          = if p u = true then f u else firstHit p f (us ++ l₂) from rfl]
      rw [hu]
      simp only [Bool.false_eq_true, if_false]
      exact ih l₂ (fun v hv => h v (List.mem_cons_of_mem u hv))

/-- The scan breaks at the head when the predicate holds there. -/
theorem firstHit_head (p : ℚ → Bool) (f : ℚ → ℚ) (t : ℚ) (l : List ℚ)
    (h : p t = true) :
    firstHit p f (t :: l) = f t := by
  rw [show firstHit p f (t :: l) = if p t = true then f t else firstHit p f l from rfl,
    h, if_pos rfl]

/-- A scan over a list on which the predicate never holds returns `0`. -/
theorem firstHit_of_none (p : ℚ → Bool) (f : ℚ → ℚ) :
    ∀ l : List ℚ, (∀ u ∈ l, p u = false) → firstHit p f l = 0 := by
  intro l
  induction l with
  | nil => intro _; rfl
  | cons u us ih =>
      intro h
      have hu : p u = false := h u (List.mem_cons_self u us)
      rw [show firstHit p f (u :: us)
          = if p u = true then f u else firstHit p f us from rfl, hu]
      simp only [Bool.false_eq_true, if_false]
      exact ih (fun v hv => h v (List.mem_cons_of_mem u hv))

/-- Splitting a mapped range after position `a`. -/
theorem range_map_split_cons (g : ℕ → ℚ) (a b : ℕ) :
    (List.range (a + (b + 1))).map g
      = (List.range a).map g
        ++ g a :: (List.range b).map (fun k : ℕ => g (a + (k + 1))) := by
  rw [map_range_split]
  congr 1
  rw [List.range_succ_eq_map, List.map_cons, List.map_map]
  simp [Function.comp, Nat.succ_eq_add_one]

/-- The C6 run: one same pair with probability `3/5`, two different pairs
with probabilities `1/2` and `3/5`. -/
def pairsC6 : List (ℚ × Bool) := [(3/5, true), (1/2, false), (3/5, false)]

/-- Counting a predicate over a three-element list. -/
theorem countP_three (p : ℚ × Bool → Bool) (a b c : ℚ × Bool) :
    List.countP p [a, b, c]
      = (if p a = true then 1 else 0) + (if p b = true then 1 else 0)
        + (if p c = true then 1 else 0) := by
  cases hpa : p a <;> cases hpb : p b <;> cases hpc : p c <;>
    simp [List.countP_cons, hpa, hpb, hpc]

/-- Pointwise FPR of the C6 run over the grid. -/
theorem fprAt_pairsC6 (k : ℕ) :
    fprAt pairsC6 ((k : ℚ) / 999)
      = if k ≤ 499 then 1 else if k ≤ 599 then 1/2 else 0 := by
  unfold fprAt fpAt tnAt pairsC6
  rw [countP_three, countP_three]
  simp only [Bool.not_true, Bool.not_false, Bool.and_false, Bool.and_true,
    Bool.false_eq_true, if_false, decide_eq_true_eq]
  by_cases h1 : k ≤ 499
  · have hk : (k : ℚ) ≤ 499 := by exact_mod_cast h1
    have hc1 : (k : ℚ) / 999 ≤ 1/2 := by
      rw [div_le_div_iff (by norm_num) (by norm_num)]
      linarith
    have hc2 : (k : ℚ) / 999 ≤ 3/5 := by
      rw [div_le_div_iff (by norm_num) (by norm_num)]
      linarith
    rw [if_pos h1, if_pos hc1, if_pos hc2, if_neg (not_lt.mpr hc1),
      if_neg (not_lt.mpr hc2)]
    norm_num [ratio]
  · by_cases h2 : k ≤ 599
    · have hge : (500 : ℚ) ≤ (k : ℚ) := by exact_mod_cast Nat.not_le.mp h1
      have hk : (k : ℚ) ≤ 599 := by exact_mod_cast h2
      have hc1 : ¬ ((k : ℚ) / 999 ≤ 1/2) := by
        rw [not_le, div_lt_div_iff (by norm_num) (by norm_num)]
        linarith
      have hc2 : (k : ℚ) / 999 ≤ 3/5 := by
        rw [div_le_div_iff (by norm_num) (by norm_num)]
        linarith
      rw [if_neg h1, if_pos h2, if_neg hc1, if_pos hc2, if_pos (not_le.mp hc1),
        if_neg (not_lt.mpr hc2)]
      norm_num [ratio]
    · have hge : (600 : ℚ) ≤ (k : ℚ) := by exact_mod_cast Nat.not_le.mp h2
      have hc1 : ¬ ((k : ℚ) / 999 ≤ 1/2) := by
        rw [not_le, div_lt_div_iff (by norm_num) (by norm_num)]
        linarith
      have hc2 : ¬ ((k : ℚ) / 999 ≤ 3/5) := by
        rw [not_le, div_lt_div_iff (by norm_num) (by norm_num)]
        linarith
      rw [if_neg h1, if_neg h2, if_neg hc1, if_neg hc2, if_pos (not_le.mp hc1),
        if_pos (not_le.mp hc2)]
      norm_num [ratio]

/-- Pointwise TPR of the C6 run over the grid. -/
theorem tprAt_pairsC6 (k : ℕ) :
    tprAt pairsC6 ((k : ℚ) / 999) = if k ≤ 599 then 1 else 0 := by
  unfold tprAt tpAt fnAt pairsC6
  rw [countP_three, countP_three]
  simp only [Bool.not_true, Bool.not_false, Bool.and_false, Bool.and_true,
    Bool.false_eq_true, if_false, decide_eq_true_eq]
  by_cases h : k ≤ 599
  · have hk : (k : ℚ) ≤ 599 := by exact_mod_cast h
    have hc : (k : ℚ) / 999 ≤ 3/5 := by
      rw [div_le_div_iff (by norm_num) (by norm_num)]
      linarith
    rw [if_pos h, if_pos hc, if_neg (not_lt.mpr hc)]
    norm_num [ratio]
  · have hge : (600 : ℚ) ≤ (k : ℚ) := by exact_mod_cast Nat.not_le.mp h
    have hc : ¬ ((k : ℚ) / 999 ≤ 3/5) := by
      rw [not_le, div_lt_div_iff (by norm_num) (by norm_num)]
      linarith
    rw [if_neg h, if_neg hc, if_pos (not_le.mp hc)]
    norm_num [ratio]

/-- Counterexample to C6: on the C6 run the linear engine reports TAR 0,
while the claim's scan — thresholds from highest to lowest, break at the
first FPR at or above the target — reports 1.  The code walks its grid
from the lowest threshold up and breaks at the first FPR at or below the
target, one grid step past the claim's stopping point. -/
theorem linear_tar_scan_counterexample :
    linearTARatFAR pairsC6 (1/1000) = 0 ∧
    specTARDesc pairsC6 (1/1000) = 1 ∧
    linearTARatFAR pairsC6 (1/1000) ≠ specTARDesc pairsC6 (1/1000) := by
  have hsplit600 : thresholds1000
      = (List.range 600).map (fun k : ℕ => (k : ℚ) / 999)
        ++ ((600 : ℕ) : ℚ) / 999
          :: (List.range 399).map (fun k : ℕ => (((600 + (k + 1) : ℕ)) : ℚ) / 999) := by
    unfold thresholds1000
    rw [show (1000 : ℕ) = 600 + (399 + 1) from rfl, range_map_split_cons]
  have hasc : linearTARatFAR pairsC6 (1/1000) = 0 := by
    unfold linearTARatFAR
    rw [hsplit600, firstHit_skip_front _ _ _ _ ?hpre, firstHit_head _ _ _ _ ?hhd]
    case hpre =>
      intro u hu
      rcases List.mem_map.mp hu with ⟨k, hk, rfl⟩
      have hk600 : k < 600 := List.mem_range.mp hk
      apply decide_eq_false
      rw [fprAt_pairsC6]
      by_cases h5 : k ≤ 499
      · rw [if_pos h5]
        norm_num
      · rw [if_neg h5, if_pos (by omega)]
        norm_num
    case hhd =>
      apply decide_eq_true
      rw [fprAt_pairsC6 600]
      norm_num
    · rw [tprAt_pairsC6 600]
      norm_num
  have hdesc : specTARDesc pairsC6 (1/1000) = 1 := by
    have hsplit599 : thresholds1000
        = (List.range 599).map (fun k : ℕ => (k : ℚ) / 999)
          ++ ((599 : ℕ) : ℚ) / 999
            :: (List.range 400).map (fun k : ℕ => (((599 + (k + 1) : ℕ)) : ℚ) / 999) := by
      unfold thresholds1000
      rw [show (1000 : ℕ) = 599 + (400 + 1) from rfl, range_map_split_cons]
    unfold specTARDesc
    rw [hsplit599, List.reverse_append, List.reverse_cons, List.append_assoc,
      List.singleton_append]
    rw [firstHit_skip_front _ _ _ _ ?hpre2, firstHit_head _ _ _ _ ?hhd2]
    case hpre2 =>
      intro u hu
      rw [List.mem_reverse] at hu
      rcases List.mem_map.mp hu with ⟨k, hk, rfl⟩
      apply decide_eq_false
      rw [fprAt_pairsC6]
      rw [if_neg (by omega), if_neg (by omega)]
      norm_num
    case hhd2 =>
      apply decide_eq_true
      rw [fprAt_pairsC6 599]
      norm_num
    · rw [tprAt_pairsC6 599]
      norm_num
  refine ⟨hasc, hdesc, ?_⟩
  rw [hasc, hdesc]
  norm_num

/-- The guarded ratio is never negative. -/
theorem ratio_nonneg (a b : ℕ) : 0 ≤ ratio a b := by
  unfold ratio
  by_cases h : 0 < b
  · rw [if_pos h]
    positivity
  · rw [if_neg h]

/-- C6 amended: each TAR@FAR search reports the TPR at the first grid
threshold, in its own scan order, meeting its own stopping rule — the
penalty engine walks its grid from 1 down to 0 and breaks at the first
FPR at or above the target, as the claim says; the linear engine walks
its grid from 0 up to 1 and breaks at the first FPR at or below the
target; both report 0 when the rule never fires. -/
theorem tar_at_far_first_hit (pairs : List (ℚ × Bool)) (same diff : List ℚ)
    (target : ℚ) (l₁ : List ℚ) (t : ℚ) (l₂ : List ℚ) :
    ((thresholds1000 = l₁ ++ t :: l₂ →
        (∀ u ∈ l₁, target < fprAt pairs u) → fprAt pairs t ≤ target →
        linearTARatFAR pairs target = tprAt pairs t) ∧
      ((∀ u ∈ thresholds1000, target < fprAt pairs u) →
        linearTARatFAR pairs target = 0)) ∧
    ((thrDesc10000 = l₁ ++ t :: l₂ →
        (∀ u ∈ l₁, fprAtP diff u < target) → target ≤ fprAtP diff t →
        penaltyTARatFAR same diff target = tprAtP same t) ∧
      ((∀ u ∈ thrDesc10000, fprAtP diff u < target) →
        penaltyTARatFAR same diff target = 0)) := by
  refine ⟨⟨?_, ?_⟩, ?_, ?_⟩
  · intro hsplit hprev hhit
    unfold linearTARatFAR
    rw [hsplit,
      firstHit_skip_front _ _ _ _
        (fun u hu => decide_eq_false (not_le.mpr (hprev u hu))),
      firstHit_head _ _ _ _ (decide_eq_true hhit)]
  · intro hall
    unfold linearTARatFAR
    exact firstHit_of_none _ _ _
      (fun u hu => decide_eq_false (not_le.mpr (hall u hu)))
  · intro hsplit hprev hhit
    unfold penaltyTARatFAR
    rw [hsplit,
      firstHit_skip_front _ _ _ _
        (fun u hu => decide_eq_false (not_le.mpr (hprev u hu))),
      firstHit_head _ _ _ _ (decide_eq_true hhit)]
  · intro hall
    unfold penaltyTARatFAR
    exact firstHit_of_none _ _ _
      (fun u hu => decide_eq_false (not_le.mpr (hall u hu)))

/-- Witness for C6 amended: the penalty scan on one same score 1 and one
different score 1 breaks at its first threshold (value 1, where FPR is 1),
and the linear scan with a target below every FPR reports 0. -/
theorem tar_at_far_first_hit_w :
    penaltyTARatFAR [1] [1] (1/1000) = tprAtP [1] (1 - ((0 : ℕ) : ℚ) / 9999) ∧
    linearTARatFAR [((0 : ℚ), false)] (-1) = 0 := by
  constructor
  · have hsplit : thrDesc10000
        = ([] : List ℚ) ++ (1 - ((0 : ℕ) : ℚ) / 9999)
          :: (List.range 9999).map ((fun k : ℕ => 1 - (k : ℚ) / 9999) ∘ Nat.succ) := by
      unfold thrDesc10000
      rw [show (10000 : ℕ) = 9999 + 1 from rfl, List.range_succ_eq_map,
        List.map_cons, List.map_map, List.nil_append]
    refine (tar_at_far_first_hit [] [1] [1] (1/1000) []
        (1 - ((0 : ℕ) : ℚ) / 9999)
        ((List.range 9999).map ((fun k : ℕ => 1 - (k : ℚ) / 9999) ∘ Nat.succ))).2.1
      hsplit (fun u hu => absurd hu (List.not_mem_nil u)) ?_
    unfold fprAtP ratio
    norm_num [List.countP_cons]
  · exact (tar_at_far_first_hit [((0 : ℚ), false)] [] [] (-1) [] 0 []).1.2
      (fun u _ => lt_of_lt_of_le (by norm_num) (ratio_nonneg _ _))

end HowAlike
